import Mathlib

/-!
Verification of the marketing-analytics ETL pipeline
(`src/etl/clean_merge.py`, `src/etl/load_to_duckdb.py`, `src/dashboard/app.py`).

The Python code is shallowly embedded: pandas rows become Lean structures,
numeric cells become exact rationals (`ℚ`; pandas `NA` is `Option`), and the
stateful file/store interactions become explicit state passing.  Pandas
`DataFrame.sort_values` over several keys is a stable lexicographic sort and
is embedded as a stable insertion sort over the same total preorder.
-/

/-! ### Python string primitives used by `normalize_campaign_id` -/

/-- Whitespace recognised by Python `str.strip` (ASCII subset; the Unicode
space characters Python additionally strips do not occur in the data). -/
def pyIsSpace (c : Char) : Bool :=
  c == ' ' || c == '\t' || c == '\n' || c == '\r' || c == '\x0b' || c == '\x0c'

/-- `str.strip` on the character list of a Python string: drop leading and
trailing whitespace. -/
def stripList (l : List Char) : List Char :=
  (((l.dropWhile pyIsSpace).reverse).dropWhile pyIsSpace).reverse

/-- Python `str.strip`. -/
def pyStrip (s : String) : String := ⟨stripList s.data⟩

/-- `pat` is a leading segment of `s` (character-list form of
Python `s.startswith(pat)`). -/
def leadsWith (pat s : List Char) : Bool :=
  match pat, s with
  | [], _ => true
  | _ :: _, [] => false
  | a :: rest, b :: more => decide (a = b) && leadsWith rest more

/-- Python `s.startswith(pat)`. -/
def pyStartsWith (s pat : String) : Bool := leadsWith pat.data s.data

/-! ### `normalize_campaign_id` (src/etl/clean_merge.py lines 15-34)

`campaign_id` may be missing (`pd.isna`), modelled as `none`; a present value
is already a string in the data, so Python's `str(...)` is the identity. -/

/-- Embedding of `normalize_campaign_id`:
if the id is missing return `{platform}_unknown`; otherwise strip it and,
unless it already starts with the platform, prepend `{platform}_`. -/
def normalize_campaign_id (campaign_id : Option String) (platform : String) : String :=
  match campaign_id with
  | none => platform ++ "_unknown"
  | some s =>
      let s' := pyStrip s
      if pyStartsWith s' platform then s' else platform ++ "_" ++ s'

/-! ### Lemmas about `leadsWith` and `stripList` -/

theorem leadsWith_iff {p s : List Char} : leadsWith p s = true ↔ ∃ t, p ++ t = s := by
  induction p generalizing s with
  | nil => simp [leadsWith]
  | cons a as ih =>
      cases s with
      | nil => simp [leadsWith]
      | cons b bs =>
          simp only [leadsWith, Bool.and_eq_true, decide_eq_true_eq, ih, List.cons_append,
            List.cons.injEq]
          constructor
          · rintro ⟨rfl, t, rfl⟩; exact ⟨t, rfl, rfl⟩
          · rintro ⟨t, rfl, rfl⟩; exact ⟨rfl, t, rfl⟩

theorem leadsWith_append (p t : List Char) : leadsWith p (p ++ t) = true :=
  leadsWith_iff.mpr ⟨t, rfl⟩

/-- Two leading segments of one list are comparable. -/
theorem leads_comparable {p q s : List Char}
    (hp : leadsWith p s = true) (hq : leadsWith q s = true) :
    leadsWith p q = true ∨ leadsWith q p = true := by
  obtain ⟨t1, rfl⟩ := leadsWith_iff.mp hp
  obtain ⟨t2, ht⟩ := leadsWith_iff.mp hq
  clear hp hq
  induction p generalizing q with
  | nil => exact Or.inl (by simp [leadsWith])
  | cons a as ih =>
      cases q with
      | nil => exact Or.inr (by simp [leadsWith])
      | cons b bs =>
          simp only [List.cons_append, List.cons.injEq] at ht
          obtain ⟨rfl, ht⟩ := ht
          rcases ih ht with h | h
          · exact Or.inl (by simp [leadsWith, h])
          · exact Or.inr (by simp [leadsWith, h])

theorem dropWhile_eq_self_of_head {l : List Char}
    (h : ∀ c, l.head? = some c → pyIsSpace c = false) :
    l.dropWhile pyIsSpace = l := by
  cases l with
  | nil => rfl
  | cons a t => simp [List.dropWhile_cons, h a rfl]

theorem head?_dropWhile {l : List Char} {c : Char}
    (h : (l.dropWhile pyIsSpace).head? = some c) : pyIsSpace c = false := by
  induction l with
  | nil => simp at h
  | cons a t ih =>
      rw [List.dropWhile_cons] at h
      by_cases ha : pyIsSpace a
      · rw [if_pos ha] at h; exact ih h
      · rw [if_neg ha] at h
        simp only [List.head?_cons, Option.some.injEq] at h
        subst h
        simpa using ha

theorem getLast?_dropWhile (p : Char → Bool) (l : List Char) :
    l.dropWhile p = [] ∨ (l.dropWhile p).getLast? = l.getLast? := by
  induction l with
  | nil => exact Or.inl rfl
  | cons a t ih =>
      rw [List.dropWhile_cons]
      by_cases ha : p a
      · rw [if_pos ha]
        cases t with
        | nil => exact Or.inl rfl
        | cons b t2 =>
            rcases ih with h | h
            · exact Or.inl h
            · exact Or.inr (by rw [h, List.getLast?_cons_cons])
      · rw [if_neg ha]
        exact Or.inr rfl

/-- Both ends of a string with non-space ends survive `strip` unchanged. -/
theorem stripList_eq_self {l : List Char}
    (hh : ∀ c, l.head? = some c → pyIsSpace c = false)
    (hl : ∀ c, l.getLast? = some c → pyIsSpace c = false) :
    stripList l = l := by
  unfold stripList
  rw [dropWhile_eq_self_of_head hh]
  have : l.reverse.dropWhile pyIsSpace = l.reverse := by
    apply dropWhile_eq_self_of_head
    intro c hc
    rw [List.head?_reverse] at hc
    exact hl c hc
  rw [this, List.reverse_reverse]

theorem stripList_head {l : List Char} {c : Char}
    (h : (stripList l).head? = some c) : pyIsSpace c = false := by
  unfold stripList at h
  set m := l.dropWhile pyIsSpace with hm
  rcases getLast?_dropWhile pyIsSpace m.reverse with he | he
  · rw [he] at h; simp at h
  · rw [List.head?_reverse, he, List.getLast?_reverse] at h
    exact head?_dropWhile h

theorem stripList_getLast {l : List Char} {c : Char}
    (h : (stripList l).getLast? = some c) : pyIsSpace c = false := by
  unfold stripList at h
  rw [← List.head?_reverse, List.reverse_reverse] at h
  exact head?_dropWhile h

theorem stripList_idem (l : List Char) : stripList (stripList l) = stripList l :=
  stripList_eq_self (fun _ h => stripList_head h) (fun _ h => stripList_getLast h)

theorem getLast?_append_cons (l t : List Char) (a : Char) :
    (l ++ a :: t).getLast? = (a :: t).getLast? := by
  induction l with
  | nil => rfl
  | cons x xs ih =>
      rw [List.cons_append]
      cases h : xs ++ a :: t with
      | nil => exact absurd h (by simp)
      | cons y ys => rw [List.getLast?_cons_cons, ← h, ih]

/-! ### The normalizer always emits the platform as a leading segment -/

theorem normalize_leads (campaign_id : Option String) (platform : String) :
    pyStartsWith (normalize_campaign_id campaign_id platform) platform = true := by
  cases campaign_id with
  | none =>
      show pyStartsWith (platform ++ "_unknown") platform = true
      unfold pyStartsWith
      rw [String.data_append]
      exact leadsWith_append _ _
  | some s =>
      show pyStartsWith
        (if pyStartsWith (pyStrip s) platform then pyStrip s
         else platform ++ "_" ++ pyStrip s) platform = true
      by_cases h : pyStartsWith (pyStrip s) platform = true
      · rw [if_pos h]; exact h
      · rw [if_neg (by simpa using h)]
        unfold pyStartsWith
        rw [String.data_append, String.data_append, List.append_assoc]
        exact leadsWith_append _ _

theorem pyStrip_eq_self {s : String}
    (hh : ∀ c, s.data.head? = some c → pyIsSpace c = false)
    (hl : ∀ c, s.data.getLast? = some c → pyIsSpace c = false) :
    pyStrip s = s := by
  cases s with
  | mk d =>
      unfold pyStrip
      rw [stripList_eq_self hh hl]

theorem pyStrip_idem (s : String) : pyStrip (pyStrip s) = pyStrip s := by
  unfold pyStrip
  rw [stripList_idem]

/-- If the platform's first character is not whitespace, the output of
`normalize_campaign_id` has no leading or trailing whitespace, so a second
`strip` leaves it unchanged. -/
theorem normalize_strip_fixed (campaign_id : Option String) (platform : String)
    (hp : ∀ c, platform.data.head? = some c → pyIsSpace c = false) :
    pyStrip (normalize_campaign_id campaign_id platform) =
      normalize_campaign_id campaign_id platform := by
  cases campaign_id with
  | none =>
      show pyStrip (platform ++ "_unknown") = platform ++ "_unknown"
      apply pyStrip_eq_self
      · intro c hc
        rw [String.data_append] at hc
        cases hd : platform.data with
        | nil =>
            rw [hd] at hc
            simp only [List.nil_append, List.head?_cons, Option.some.injEq] at hc
            subst hc; decide
        | cons a t =>
            rw [hd] at hc
            simp only [List.cons_append, List.head?_cons, Option.some.injEq] at hc
            subst hc
            exact hp _ (by rw [hd]; rfl)
      · intro c hc
        rw [String.data_append, getLast?_append_cons] at hc
        simp only [List.getLast?_cons_cons, List.getLast?_singleton, Option.some.injEq] at hc
        subst hc; decide
  | some s =>
      show pyStrip
          (if pyStartsWith (pyStrip s) platform then pyStrip s
           else platform ++ "_" ++ pyStrip s) =
        (if pyStartsWith (pyStrip s) platform then pyStrip s
         else platform ++ "_" ++ pyStrip s)
      by_cases h : pyStartsWith (pyStrip s) platform = true
      · rw [if_pos h]
        exact pyStrip_idem s
      · rw [if_neg (by simpa using h)]
        have hpn : platform.data ≠ [] := by
          intro hnil
          apply h
          show leadsWith platform.data (pyStrip s).data = true
          rw [hnil]
          rfl
        apply pyStrip_eq_self
        · intro c hc
          rw [String.data_append, String.data_append] at hc
          cases hd : platform.data with
          | nil => exact absurd hd hpn
          | cons a t =>
              rw [hd] at hc
              simp only [List.append_assoc, List.cons_append, List.head?_cons,
                Option.some.injEq] at hc
              subst hc
              exact hp _ (by rw [hd]; rfl)
        · intro c hc
          rw [String.data_append, String.data_append, List.append_assoc,
            (rfl : ("_" : String).data = ['_']), List.cons_append, List.nil_append,
            getLast?_append_cons] at hc
          cases hd : (pyStrip s).data with
          | nil =>
              rw [hd] at hc
              simp only [List.getLast?_singleton, Option.some.injEq] at hc
              subst hc; decide
          | cons a t =>
              rw [hd, List.getLast?_cons_cons] at hc
              apply stripList_getLast (l := s.data)
              rw [← hd] at hc
              exact hc

/-! ### Rounding and `compute_metrics` (src/etl/clean_merge.py lines 37-61)

Numeric cells are exact rationals.  pandas `Series.round(2)` goes through
numpy `rint(x * 100) / 100`, which rounds half to even; on the dyadic values
relevant here the float computation is exact, so the rational half-even
rounding below is the faithful model. -/

/-- Round a rational to the nearest integer, ties to the even neighbour
(numpy `rint`). -/
def rintHalfEven (x : ℚ) : ℤ :=
  let n := ⌊x⌋
  let f := x - n
  if f < 1/2 then n
  else if 1/2 < f then n + 1
  else if n % 2 = 0 then n else n + 1

/-- pandas `Series.round(2)`. -/
def pyRound2 (q : ℚ) : ℚ := (rintHalfEven (q * 100) : ℚ) / 100

/-- pandas `Series.replace(0, pd.NA)`: a zero denominator becomes missing. -/
def naRepl0 (d : ℚ) : Option ℚ := if d = 0 then none else some d

/-- Division with a possibly-missing denominator; `NA` propagates. -/
def naDiv (n : ℚ) (d : Option ℚ) : Option ℚ := d.map (fun x => n / x)

/-- Multiplication by a scalar with `NA` propagation. -/
def naMul (o : Option ℚ) (k : ℚ) : Option ℚ := o.map (· * k)

/-- pandas `Series.fillna(0)`. -/
def fillna0 (o : Option ℚ) : ℚ := o.getD 0

/-- The four derived efficiency metrics of one row. -/
structure Metrics where
  ctr : ℚ
  cpc : ℚ
  roas : ℚ
  conversion_rate : ℚ
deriving DecidableEq, Repr

/-- Embedding of `compute_metrics`, row-wise:
`ctr = (clicks / impressions.replace(0, NA) * 100).fillna(0).round(2)` and
likewise `cpc`, `roas`, `conversion_rate`. -/
def compute_metrics (impressions clicks conversions cost revenue : ℚ) : Metrics where
  ctr := pyRound2 (fillna0 (naMul (naDiv clicks (naRepl0 impressions)) 100))
  cpc := pyRound2 (fillna0 (naDiv cost (naRepl0 clicks)))
  roas := pyRound2 (fillna0 (naDiv revenue (naRepl0 cost)))
  conversion_rate := pyRound2 (fillna0 (naMul (naDiv conversions (naRepl0 clicks)) 100))

theorem pyRound2_zero : pyRound2 0 = 0 := by
  have h0 : rintHalfEven 0 = 0 := by
    unfold rintHalfEven
    norm_num
  unfold pyRound2
  norm_num [h0]

/-! ### Date handling (src/etl/clean_merge.py lines 122-125)

`pd.to_datetime(..., errors="coerce")` followed by `strftime("%Y-%m-%d")`:
a parsable date is reformatted as `YYYY-MM-DD`, an unparsable one becomes
missing (`NaT`, then `NaN`).  The parser is modelled on the ISO `YYYY-MM-DD`
grammar, the format the pipeline's own fetch/generate scripts emit; any
other string is unparsable. -/

/-- Gregorian month length. -/
def daysInMonth (y m : ℕ) : ℕ :=
  if m = 2 then
    if y % 4 = 0 && (y % 100 ≠ 0 || y % 400 = 0) then 29 else 28
  else if m = 4 || m = 6 || m = 9 || m = 11 then 30
  else 31

/-- Numeric value of a decimal digit character. -/
def digitVal (c : Char) : ℕ := c.toNat - 48

/-- Parse a strict `YYYY-MM-DD` calendar date; `none` on anything else. -/
def parseDate (s : String) : Option (ℕ × ℕ × ℕ) :=
  match s.data with
  | [y1, y2, y3, y4, h1, m1, m2, h2, d1, d2] =>
      if y1.isDigit && y2.isDigit && y3.isDigit && y4.isDigit && h1 == '-' &&
         m1.isDigit && m2.isDigit && h2 == '-' && d1.isDigit && d2.isDigit then
        let y := ((digitVal y1 * 10 + digitVal y2) * 10 + digitVal y3) * 10 + digitVal y4
        let m := digitVal m1 * 10 + digitVal m2
        let d := digitVal d1 * 10 + digitVal d2
        if 1 ≤ m && m ≤ 12 && 1 ≤ d && d ≤ daysInMonth y m then some (y, m, d) else none
      else none
  | _ => none

/-- Two-digit zero-padded decimal rendering. -/
def pad2 (n : ℕ) : List Char := [Char.ofNat (48 + n / 10 % 10), Char.ofNat (48 + n % 10)]

/-- `strftime("%Y-%m-%d")` on a parsed date. -/
def fmtDate (ymd : ℕ × ℕ × ℕ) : String :=
  ⟨[Char.ofNat (48 + ymd.1 / 1000 % 10), Char.ofNat (48 + ymd.1 / 100 % 10)] ++
    pad2 ymd.1 ++ ['-'] ++ pad2 ymd.2.1 ++ ['-'] ++ pad2 ymd.2.2⟩

/-! ### Rows of the unified dataset -/

/-- One raw input row (per-platform CSV): `campaign_id` may be missing,
numeric cells may be non-numeric (`none`, coerced to 0 by
`pd.to_numeric(..., errors="coerce").fillna(0)`). -/
structure RawRow where
  campaign_id : Option String
  campaign_name : String
  date : String
  platform : String
  impressions : Option ℚ
  clicks : Option ℚ
  conversions : Option ℚ
  cost : Option ℚ
  revenue : Option ℚ
deriving DecidableEq, Repr

/-- One row of the unified dataset: normalized id, reformatted (possibly
missing) date, coerced numerics and the four derived metrics. -/
structure Row where
  campaign_id : String
  campaign_name : String
  date : Option String
  platform : String
  impressions : ℚ
  clicks : ℚ
  conversions : ℚ
  cost : ℚ
  revenue : ℚ
  ctr : ℚ
  cpc : ℚ
  roas : ℚ
  conversion_rate : ℚ
deriving DecidableEq, Repr

/-- Row-wise cleaning of `clean_and_merge` (lines 109-129): normalize the id,
coerce numerics, re-parse and re-format the date, compute the metrics. -/
def cleanRow (r : RawRow) : Row :=
  let impressions := fillna0 r.impressions
  let clicks := fillna0 r.clicks
  let conversions := fillna0 r.conversions
  let cost := fillna0 r.cost
  let revenue := fillna0 r.revenue
  let m := compute_metrics impressions clicks conversions cost revenue
  { campaign_id := normalize_campaign_id r.campaign_id r.platform
    campaign_name := r.campaign_name
    date := (parseDate r.date).map fmtDate
    platform := r.platform
    impressions := impressions
    clicks := clicks
    conversions := conversions
    cost := cost
    revenue := revenue
    ctr := m.ctr
    cpc := m.cpc
    roas := m.roas
    conversion_rate := m.conversion_rate }

/-! ### The ordering of `sort_values(["date", "platform", "campaign_id"],
ascending=[False, True, True])` (line 132)

After `strftime` the date column is a string column (or missing), and pandas
sorts string columns lexicographically by code point, missing values last. -/

/-- Three-way comparison of characters by code point. -/
def charOrd (a b : Char) : Ordering :=
  if a < b then .lt else if b < a then .gt else .eq

/-- Lexicographic three-way comparison of character lists. -/
def lexCmp : List Char → List Char → Ordering
  | [], [] => .eq
  | [], _ :: _ => .lt
  | _ :: _, [] => .gt
  | a :: as, b :: bs => (charOrd a b).then (lexCmp as bs)

/-- Comparison of the date key: descending on present dates, missing last. -/
def dateOrd (a b : Option String) : Ordering :=
  match a, b with
  | some x, some y => lexCmp y.data x.data
  | some _, none => .lt
  | none, some _ => .gt
  | none, none => .eq

/-- The three sort keys of a unified row. -/
def rowKey (r : Row) : Option String × String × String :=
  (r.date, r.platform, r.campaign_id)

/-- Lexicographic comparison of sort keys:
date descending, platform ascending, campaign_id ascending. -/
def keyOrd (x y : Option String × String × String) : Ordering :=
  (dateOrd x.1 y.1).then
    ((lexCmp x.2.1.data y.2.1.data).then (lexCmp x.2.2.data y.2.2.data))

/-- The sort comparator of the unified dataset. -/
def rowOrd (a b : Row) : Ordering := keyOrd (rowKey a) (rowKey b)

/-- The (total, transitive) preorder the unified dataset is sorted by. -/
def rowLe (a b : Row) : Prop := rowOrd a b ≠ .gt

theorem charOrd_lt_iff {a b : Char} : charOrd a b = .lt ↔ a < b := by
  unfold charOrd
  rcases lt_trichotomy a b with h | h | h
  · rw [if_pos h]; simp [h]
  · subst h; rw [if_neg (lt_irrefl a), if_neg (lt_irrefl a)]; simp [lt_irrefl]
  · rw [if_neg (asymm h), if_pos h]; simp [asymm h]

theorem charOrd_gt_iff {a b : Char} : charOrd a b = .gt ↔ b < a := by
  unfold charOrd
  rcases lt_trichotomy a b with h | h | h
  · rw [if_pos h]; simp [asymm h]
  · subst h; rw [if_neg (lt_irrefl a), if_neg (lt_irrefl a)]; simp [lt_irrefl]
  · rw [if_neg (asymm h), if_pos h]; simp [h]

theorem charOrd_eq_iff {a b : Char} : charOrd a b = .eq ↔ a = b := by
  unfold charOrd
  rcases lt_trichotomy a b with h | h | h
  · rw [if_pos h]; simp [ne_of_lt h]
  · subst h; rw [if_neg (lt_irrefl a), if_neg (lt_irrefl a)]; simp
  · rw [if_neg (asymm h), if_pos h]
    simp [(ne_of_lt h).symm]

theorem charOrd_swap (a b : Char) : (charOrd a b).swap = charOrd b a := by
  rcases lt_trichotomy a b with h | h | h
  · rw [charOrd_lt_iff.mpr h, (by rwa [charOrd_gt_iff] : charOrd b a = .gt)]; rfl
  · rw [charOrd_eq_iff.mpr h, charOrd_eq_iff.mpr h.symm]; rfl
  · rw [charOrd_gt_iff.mpr h, (by rwa [charOrd_lt_iff] : charOrd b a = .lt)]; rfl

theorem lexCmp_swap : ∀ a b : List Char, (lexCmp a b).swap = lexCmp b a
  | [], [] => rfl
  | [], _ :: _ => rfl
  | _ :: _, [] => rfl
  | a :: as, b :: bs => by
      show ((charOrd a b).then (lexCmp as bs)).swap = (charOrd b a).then (lexCmp bs as)
      rw [Ordering.swap_then, charOrd_swap, lexCmp_swap as bs]

theorem lexCmp_eq_iff : ∀ {a b : List Char}, lexCmp a b = .eq ↔ a = b
  | [], [] => by simp [lexCmp]
  | [], _ :: _ => by simp [lexCmp]
  | _ :: _, [] => by simp [lexCmp]
  | a :: as, b :: bs => by
      show (charOrd a b).then (lexCmp as bs) = .eq ↔ _
      rw [Ordering.then_eq_eq, charOrd_eq_iff, lexCmp_eq_iff]
      simp

theorem lexCmp_lt_trans :
    ∀ {a b c : List Char}, lexCmp a b = .lt → lexCmp b c = .lt → lexCmp a c = .lt
  | [], _ :: _, _ :: _, _, _ => rfl
  | [], _, [], _, h2 => by cases ‹List Char› <;> simp [lexCmp] at h2 ⊢
  | [], [], _, h1, _ => by simp [lexCmp] at h1
  | _ :: _, [], _, h1, _ => by simp [lexCmp] at h1
  | _ :: _, _ :: _, [], _, h2 => by simp [lexCmp] at h2
  | a :: as, b :: bs, c :: cs, h1, h2 => by
      rw [show lexCmp (a :: as) (b :: bs) = (charOrd a b).then (lexCmp as bs) from rfl,
        Ordering.then_eq_lt] at h1
      rw [show lexCmp (b :: bs) (c :: cs) = (charOrd b c).then (lexCmp bs cs) from rfl,
        Ordering.then_eq_lt] at h2
      rw [show lexCmp (a :: as) (c :: cs) = (charOrd a c).then (lexCmp as cs) from rfl,
        Ordering.then_eq_lt]
      rcases h1 with h1 | ⟨h1e, h1r⟩
      · rcases h2 with h2 | ⟨h2e, h2r⟩
        · exact Or.inl (charOrd_lt_iff.mpr
            (lt_trans (charOrd_lt_iff.mp h1) (charOrd_lt_iff.mp h2)))
        · rw [charOrd_eq_iff] at h2e
          exact Or.inl (h2e ▸ h1)
      · rw [charOrd_eq_iff] at h1e
        subst h1e
        rcases h2 with h2 | ⟨h2e, h2r⟩
        · exact Or.inl h2
        · rw [charOrd_eq_iff] at h2e
          subst h2e
          exact Or.inr ⟨charOrd_eq_iff.mpr rfl, lexCmp_lt_trans h1r h2r⟩

theorem string_data_inj {a b : String} (h : a.data = b.data) : a = b :=
  congrArg String.mk h

theorem dateOrd_swap (a b : Option String) : (dateOrd a b).swap = dateOrd b a := by
  cases a <;> cases b <;> simp only [dateOrd] <;> first
    | rfl
    | exact lexCmp_swap _ _

theorem dateOrd_eq_iff {a b : Option String} : dateOrd a b = .eq ↔ a = b := by
  match a, b with
  | none, none => simp [dateOrd]
  | none, some y => simp [dateOrd]
  | some x, none => simp [dateOrd]
  | some x, some y =>
      show lexCmp y.data x.data = .eq ↔ _
      rw [lexCmp_eq_iff]
      constructor
      · intro h
        rw [string_data_inj h]
      · intro h
        cases h
        rfl

theorem dateOrd_lt_trans {a b c : Option String}
    (h1 : dateOrd a b = .lt) (h2 : dateOrd b c = .lt) : dateOrd a c = .lt := by
  match a, b, c with
  | some x, some y, some z => exact lexCmp_lt_trans h2 h1
  | some x, some y, none => rfl
  | some x, none, none => exact Ordering.noConfusion h2
  | some x, none, some z => exact Ordering.noConfusion h2
  | none, none, _ => exact Ordering.noConfusion h1
  | none, some y, _ => exact Ordering.noConfusion h1

theorem keyOrd_swap (x y : Option String × String × String) :
    (keyOrd x y).swap = keyOrd y x := by
  unfold keyOrd
  rw [Ordering.swap_then, Ordering.swap_then, dateOrd_swap, lexCmp_swap, lexCmp_swap]

theorem keyOrd_eq_iff {x y : Option String × String × String} :
    keyOrd x y = .eq ↔ x = y := by
  unfold keyOrd
  rw [Ordering.then_eq_eq, Ordering.then_eq_eq, dateOrd_eq_iff, lexCmp_eq_iff, lexCmp_eq_iff]
  constructor
  · rintro ⟨h1, h2, h3⟩
    exact Prod.ext h1 (Prod.ext (string_data_inj h2) (string_data_inj h3))
  · rintro rfl
    exact ⟨rfl, rfl, rfl⟩

theorem keyOrd_lt_trans {x y z : Option String × String × String}
    (h1 : keyOrd x y = .lt) (h2 : keyOrd y z = .lt) : keyOrd x z = .lt := by
  unfold keyOrd at h1 h2 ⊢
  rw [Ordering.then_eq_lt] at h1 h2 ⊢
  rcases h1 with h1 | ⟨h1e, h1r⟩
  · rcases h2 with h2 | ⟨h2e, h2r⟩
    · exact Or.inl (dateOrd_lt_trans h1 h2)
    · rw [dateOrd_eq_iff] at h2e
      exact Or.inl (h2e ▸ h1)
  · rw [dateOrd_eq_iff] at h1e
    rcases h2 with h2 | ⟨h2e, h2r⟩
    · exact Or.inl (h1e ▸ h2)
    · rw [dateOrd_eq_iff] at h2e
      refine Or.inr ⟨by rw [h1e, h2e, dateOrd_eq_iff], ?_⟩
      rw [Ordering.then_eq_lt] at h1r h2r ⊢
      rcases h1r with h1r | ⟨h1re, h1rr⟩
      · rcases h2r with h2r | ⟨h2re, h2rr⟩
        · exact Or.inl (lexCmp_lt_trans h1r h2r)
        · rw [lexCmp_eq_iff] at h2re
          exact Or.inl (h2re ▸ h1r)
      · rw [lexCmp_eq_iff] at h1re
        rcases h2r with h2r | ⟨h2re, h2rr⟩
        · exact Or.inl (h1re ▸ h2r)
        · rw [lexCmp_eq_iff] at h2re
          exact Or.inr ⟨by rw [h1re, h2re, lexCmp_eq_iff], lexCmp_lt_trans h1rr h2rr⟩

theorem rowOrd_swap (a b : Row) : (rowOrd a b).swap = rowOrd b a :=
  keyOrd_swap _ _

instance : DecidableRel rowLe := fun a b => by
  unfold rowLe
  infer_instance

instance rowLe_total : IsTotal Row rowLe := by
  constructor
  intro a b
  by_cases h : rowOrd a b = .gt
  · right
    show rowOrd b a ≠ .gt
    rw [← rowOrd_swap, h]
    decide
  · exact Or.inl h

instance rowLe_trans : IsTrans Row rowLe := by
  constructor
  intro a b c h1 h2
  unfold rowLe rowOrd at h1 h2 ⊢
  rcases ho1 : keyOrd (rowKey a) (rowKey b) with _ | _ | _
  · rcases ho2 : keyOrd (rowKey b) (rowKey c) with _ | _ | _
    · rw [keyOrd_lt_trans ho1 ho2]; decide
    · rw [keyOrd_eq_iff] at ho2
      rw [← ho2, ho1]; decide
    · exact absurd ho2 h2
  · rw [keyOrd_eq_iff] at ho1
    rw [ho1]; exact h2
  · exact absurd ho1 h1

/-- Embedding of the final `sort_values` + `reset_index`: pandas multi-key
`sort_values` is a stable lexicographic sort, realised here as a stable
insertion sort over the same total preorder (stable sorts over a total
preorder agree pointwise). -/
def sortRows (l : List Row) : List Row := List.insertionSort rowLe l

theorem sortRows_sorted (l : List Row) : (sortRows l).Pairwise rowLe :=
  List.sorted_insertionSort rowLe l

theorem sortRows_perm (l : List Row) : (sortRows l).Perm l :=
  List.perm_insertionSort rowLe l

/-- Stability: the rows carrying any fixed sort key appear in the output in
exactly their input order. -/
theorem sortRows_stable (l : List Row) (k : Option String × String × String) :
    (sortRows l).filter (fun r => decide (rowKey r = k)) =
      l.filter (fun r => decide (rowKey r = k)) := by
  set p : Row → Bool := fun r => decide (rowKey r = k) with hp
  have hsub : List.Sublist (l.filter p) (sortRows l) := by
    apply List.sublist_insertionSort
    · apply List.pairwise_of_forall_mem_list
      intro a ha b hb
      have hka := List.of_mem_filter ha
      have hkb := List.of_mem_filter hb
      rw [hp, decide_eq_true_eq] at hka hkb
      show rowOrd a b ≠ .gt
      unfold rowOrd
      rw [hka, hkb, keyOrd_eq_iff.mpr rfl]
      decide
    · exact List.filter_sublist l
  have hperm : ((sortRows l).filter p).Perm (l.filter p) :=
    (List.perm_insertionSort rowLe l).filter p
  have hidem : (l.filter p).filter p = l.filter p := by
    rw [List.filter_filter]
    apply List.filter_congr
    intro a _
    simp [Bool.and_self]
  have hsub2 : List.Sublist (l.filter p) ((sortRows l).filter p) := by
    have h3 := List.Sublist.filter p hsub
    rwa [hidem] at h3
  exact (List.Sublist.eq_of_length hsub2 hperm.length_eq.symm).symm

/-! ### The pipeline `clean_and_merge` (src/etl/clean_merge.py lines 64-148)

File-system interaction is state passing: each input table is `none` when
its CSV is absent, `some rows` when present; the output CSV
(`unified_ads.csv`) is the third component of the state.  The printed
"not found" messages are collected as warnings. -/

/-- All row-wise cleaning applied to the concatenated raw tables, then the
final stable sort. -/
def processRows (l : List RawRow) : List Row := sortRows (l.map cleanRow)

def googleWarning : String := "google_ads.csv not found"

def facebookWarning : String := "facebook_ads.csv not found"

def noDataError : String := "No data files found! Run fetch scripts first."

/-- Result of one `clean_and_merge` run. -/
structure EtlResult where
  result : Except String (List Row)
  store : Option (List Row)
  warnings : List String

/-- Embedding of `clean_and_merge`: load whichever of the two CSVs exist
(warning for each missing one), raise `ValueError` if both are missing,
otherwise concatenate, clean, sort and write `unified_ads.csv`.  `prior` is
the previous content of the output file; it is only replaced on success. -/
def clean_and_merge (google facebook : Option (List RawRow))
    (prior : Option (List Row)) : EtlResult :=
  let warns := (if google.isNone then [googleWarning] else []) ++
               (if facebook.isNone then [facebookWarning] else [])
  match google, facebook with
  | none, none => ⟨.error noDataError, prior, warns⟩
  | some g, some f => ⟨.ok (processRows (g ++ f)), some (processRows (g ++ f)), warns⟩
  | some g, none => ⟨.ok (processRows g), some (processRows g), warns⟩
  | none, some f => ⟨.ok (processRows f), some (processRows f), warns⟩

/-! ### The store writer `load_to_duckdb` (src/etl/load_to_duckdb.py lines 35-40)

The table replacement is two separately auto-committed statements:
`DROP TABLE IF EXISTS ads_analytics` followed by
`CREATE TABLE ads_analytics AS SELECT * FROM df`.  The store is the
content of that table (`none` = table absent); `createOk` models whether
the CREATE statement succeeds. -/

/-- `DROP TABLE IF EXISTS`: the table is gone regardless of prior state. -/
def dropTable (_ : Option (List Row)) : Option (List Row) := none

/-- `CREATE TABLE ... AS SELECT * FROM df`: the table now holds `df`. -/
def createTable (df : List Row) (_ : Option (List Row)) : Option (List Row) := some df

/-- Embedding of `load_to_duckdb` on the fixed table: first the DROP commits,
then the CREATE either commits or fails.  Returns the resulting store and
whether the load succeeded. -/
def load_to_duckdb (prior : Option (List Row)) (df : List Row) (createOk : Bool) :
    Option (List Row) × Bool :=
  let dropped := dropTable prior
  if createOk then (createTable df dropped, true) else (dropped, false)

/-! ### The dashboard KPI summary (src/dashboard/app.py lines 438-447)

One row of the dashboard's (beverage demo) dataset, with exactly the columns
the KPI block reads.  Additive metrics are aggregated with `.sum()`, per-row
ratio/derived metrics with `.mean()`. -/

structure BevRow where
  revenue : ℚ
  orders : ℚ
  new_customers : ℚ
  repeat_customers : ℚ
  avg_order_value : ℚ
  gross_margin : ℚ
  customer_lifetime_value : ℚ
  cogs : ℚ
  marketing_spend : ℚ
  nps_score : ℚ
  customer_acquisition_cost : ℚ
deriving DecidableEq, Repr

/-- pandas `Series.mean` of a non-empty column. -/
def colMean (xs : List ℚ) : ℚ := xs.sum / xs.length

/-- The ten KPI aggregates computed over the filtered subset. -/
structure KpiSummary where
  total_revenue : ℚ
  total_orders : ℚ
  total_customers : ℚ
  avg_order_value : ℚ
  avg_gross_margin : ℚ
  avg_customer_lifetime_value : ℚ
  total_cogs : ℚ
  total_marketing_spend : ℚ
  avg_nps : ℚ
  avg_customer_acquisition_cost : ℚ
deriving DecidableEq

/-- Embedding of the KPI block of `main` (lines 438-447): sums for the
additive columns, means of the already-derived per-row values for the
ratio-like columns. -/
def kpiSummary (l : List BevRow) : KpiSummary where
  total_revenue := (l.map BevRow.revenue).sum
  total_orders := (l.map BevRow.orders).sum
  total_customers := (l.map BevRow.new_customers).sum + (l.map BevRow.repeat_customers).sum
  avg_order_value := colMean (l.map BevRow.avg_order_value)
  avg_gross_margin := colMean (l.map BevRow.gross_margin)
  avg_customer_lifetime_value := colMean (l.map BevRow.customer_lifetime_value)
  total_cogs := (l.map BevRow.cogs).sum
  total_marketing_spend := (l.map BevRow.marketing_spend).sum
  avg_nps := colMean (l.map BevRow.nps_score)
  avg_customer_acquisition_cost := colMean (l.map BevRow.customer_acquisition_cost)

/-! ### Concrete sample inputs used in witnesses and counterexamples -/

/-- The platform string begins with a whitespace character. -/
def hasLeadingSpace (s : String) : Bool :=
  match s.data.head? with
  | none => false
  | some c => pyIsSpace c

/-- A raw row whose date string `pd.to_datetime` cannot parse. -/
def rawBadDate : RawRow where
  campaign_id := some "123"
  campaign_name := "Campaign X"
  date := "not-a-date"
  platform := "google_ads"
  impressions := some 100
  clicks := some 10
  conversions := some 1
  cost := some 5
  revenue := some 20

/-- A sample unified row (values as the pipeline would derive them). -/
def sampleRow : Row where
  campaign_id := "google_ads_1"
  campaign_name := "Campaign A"
  date := some "2024-01-01"
  platform := "google_ads"
  impressions := 100
  clicks := 10
  conversions := 1
  cost := 5
  revenue := 20
  ctr := 10
  cpc := 1/2
  roas := 4
  conversion_rate := 10

/-- Sample dashboard rows. -/
def bevA : BevRow where
  revenue := 100
  orders := 10
  new_customers := 3
  repeat_customers := 7
  avg_order_value := 35
  gross_margin := 1/2
  customer_lifetime_value := 420
  cogs := 40
  marketing_spend := 20
  nps_score := 35
  customer_acquisition_cost := 5

def bevB : BevRow where
  revenue := 50
  orders := 5
  new_customers := 1
  repeat_customers := 4
  avg_order_value := 25
  gross_margin := 1/4
  customer_lifetime_value := 300
  cogs := 30
  marketing_spend := 10
  nps_score := 20
  customer_acquisition_cost := 8

/-! ## The claims -/

/-- C10: for every input — missing ids included — `normalize_campaign_id`
returns a string that starts with the platform string, and consequently every
`campaign_id` of the unified dataset begins with its row's `platform`. -/
theorem c10_campaign_id_begins_with_platform :
    (∀ (cid : Option String) (p : String),
        pyStartsWith (normalize_campaign_id cid p) p = true) ∧
    ∀ l : List RawRow,
      ((processRows l).all fun r => pyStartsWith r.campaign_id r.platform) = true := by
  refine ⟨normalize_leads, ?_⟩
  intro l
  rw [List.all_eq_true]
  intro r hr
  have hmem : r ∈ l.map cleanRow := (sortRows_perm (l.map cleanRow)).mem_iff.mp hr
  obtain ⟨raw, _, rfl⟩ := List.mem_map.mp hmem
  exact normalize_leads raw.campaign_id raw.platform

/-- C2: the unified dataset (`processRows` = clean rows, then the final
`sort_values`) is, for every input, a permutation of its input ordered
exactly by `(date desc, platform asc, campaign_id asc)` (the preorder
`rowLe`), and the sort is stable: rows equal on all three keys keep their
relative input order. -/
theorem c2_ordering_contract :
    ∀ l : List Row,
      (sortRows l).Pairwise rowLe ∧
      (sortRows l).Perm l ∧
      (∀ k, (sortRows l).filter (fun r => decide (rowKey r = k)) =
            l.filter (fun r => decide (rowKey r = k))) ∧
      ∀ raw : List RawRow, processRows raw = sortRows (raw.map cleanRow) :=
  fun l => ⟨sortRows_sorted l, sortRows_perm l, fun k => sortRows_stable l k, fun _ => rfl⟩

/-- C9: the KPI summary is invariant under any permutation of the filtered
rows, its additive metrics are column sums, and its ratio-metric aggregates
are the arithmetic mean of the already-derived per-row values (sum of the
stored column divided by the row count), not a rate recomputed from summed
numerators and denominators. -/
theorem c9_kpi_sums_and_means (l l2 : List BevRow) (h : l.Perm l2) :
    kpiSummary l = kpiSummary l2 ∧
    (kpiSummary l).total_revenue = (l.map BevRow.revenue).sum ∧
    (kpiSummary l).total_orders = (l.map BevRow.orders).sum ∧
    (kpiSummary l).total_cogs = (l.map BevRow.cogs).sum ∧
    (kpiSummary l).total_marketing_spend = (l.map BevRow.marketing_spend).sum ∧
    (kpiSummary l).total_customers =
      (l.map BevRow.new_customers).sum + (l.map BevRow.repeat_customers).sum ∧
    (kpiSummary l).avg_gross_margin =
      (l.map BevRow.gross_margin).sum / (l.map BevRow.gross_margin).length ∧
    (kpiSummary l).avg_order_value =
      (l.map BevRow.avg_order_value).sum / (l.map BevRow.avg_order_value).length ∧
    (kpiSummary l).avg_customer_lifetime_value =
      (l.map BevRow.customer_lifetime_value).sum /
        (l.map BevRow.customer_lifetime_value).length ∧
    (kpiSummary l).avg_nps = (l.map BevRow.nps_score).sum / (l.map BevRow.nps_score).length ∧
    (kpiSummary l).avg_customer_acquisition_cost =
      (l.map BevRow.customer_acquisition_cost).sum /
        (l.map BevRow.customer_acquisition_cost).length := by
  have hs : ∀ f : BevRow → ℚ, (l.map f).sum = (l2.map f).sum := fun f => (h.map f).sum_eq
  have hm : ∀ f : BevRow → ℚ, colMean (l.map f) = colMean (l2.map f) := by
    intro f
    unfold colMean
    rw [hs f, (h.map f).length_eq]
  refine ⟨?_, rfl, rfl, rfl, rfl, rfl, rfl, rfl, rfl, rfl, rfl⟩
  unfold kpiSummary
  rw [hs BevRow.revenue, hs BevRow.orders, hs BevRow.new_customers,
    hs BevRow.repeat_customers, hs BevRow.cogs, hs BevRow.marketing_spend,
    hm BevRow.avg_order_value, hm BevRow.gross_margin,
    hm BevRow.customer_lifetime_value, hm BevRow.nps_score,
    hm BevRow.customer_acquisition_cost]

/-- Witness for C9 at a concrete two-row subset and its swap. -/
theorem c9_witness : kpiSummary [bevA, bevB] = kpiSummary [bevB, bevA] :=
  (c9_kpi_sums_and_means [bevA, bevB] [bevB, bevA] (List.Perm.swap bevB bevA [])).1

/-- C1: each derived metric equals the half-even 2-decimal rounding of its
ratio when the denominator is positive and equals 0 when the denominator is
zero; the arithmetic is total, so a zero denominator never produces an
error value. -/
theorem c1_zero_safe_metrics (i c cv co rv : ℚ) :
    ((0 < i → (compute_metrics i c cv co rv).ctr = pyRound2 (c / i * 100)) ∧
      (i = 0 → (compute_metrics i c cv co rv).ctr = 0)) ∧
    ((0 < c → (compute_metrics i c cv co rv).cpc = pyRound2 (co / c)) ∧
      (c = 0 → (compute_metrics i c cv co rv).cpc = 0)) ∧
    ((0 < co → (compute_metrics i c cv co rv).roas = pyRound2 (rv / co)) ∧
      (co = 0 → (compute_metrics i c cv co rv).roas = 0)) ∧
    ((0 < c → (compute_metrics i c cv co rv).conversion_rate = pyRound2 (cv / c * 100)) ∧
      (c = 0 → (compute_metrics i c cv co rv).conversion_rate = 0)) := by
  have hpos : ∀ d n : ℚ, 0 < d → fillna0 (naDiv n (naRepl0 d)) = n / d := by
    intro d n hd
    unfold naRepl0 naDiv fillna0
    rw [if_neg (ne_of_gt hd)]
    rfl
  have hposMul : ∀ d n : ℚ, 0 < d →
      fillna0 (naMul (naDiv n (naRepl0 d)) 100) = n / d * 100 := by
    intro d n hd
    unfold naRepl0 naDiv naMul fillna0
    rw [if_neg (ne_of_gt hd)]
    rfl
  have hzero : ∀ n : ℚ, pyRound2 (fillna0 (naDiv n (naRepl0 0))) = 0 := by
    intro n
    unfold naRepl0 naDiv fillna0
    rw [if_pos rfl]
    exact pyRound2_zero
  have hzeroMul : ∀ n : ℚ, pyRound2 (fillna0 (naMul (naDiv n (naRepl0 0)) 100)) = 0 := by
    intro n
    unfold naRepl0 naDiv naMul fillna0
    rw [if_pos rfl]
    exact pyRound2_zero
  exact ⟨⟨fun h => by show pyRound2 _ = _; rw [hposMul i c h],
      fun h => by subst h; exact hzeroMul c⟩,
    ⟨fun h => by show pyRound2 _ = _; rw [hpos c co h],
      fun h => by subst h; exact hzero co⟩,
    ⟨fun h => by show pyRound2 _ = _; rw [hpos co rv h],
      fun h => by subst h; exact hzero rv⟩,
    ⟨fun h => by show pyRound2 _ = _; rw [hposMul c cv h],
      fun h => by subst h; exact hzeroMul cv⟩⟩

/-- Witness for C1 at a concrete row with positive and zero denominators. -/
theorem c1_witness :
    ((0:ℚ) < 100 ∧ (compute_metrics 100 10 2 5 20).ctr = pyRound2 ((10:ℚ) / 100 * 100)) ∧
    ((0:ℚ) = 0 ∧ (compute_metrics 10 0 0 5 20).cpc = 0) :=
  ⟨⟨by norm_num, (c1_zero_safe_metrics 100 10 2 5 20).1.1 (by norm_num)⟩,
    ⟨rfl, (c1_zero_safe_metrics 10 0 0 5 20).2.1.2 rfl⟩⟩

/-- C3 counterexample: for a platform string that begins with whitespace the
normalizer is not idempotent.  `normalize_campaign_id none " g"` is
`" g_unknown"`, whose re-normalization strips the leading space, no longer
sees the platform as a leading segment, and prepends it again. -/
theorem c3_counterexample :
    normalize_campaign_id (some (normalize_campaign_id none " g")) " g" ≠
      normalize_campaign_id none " g" := by
  decide

/-- C3 amended: `normalize_campaign_id` is idempotent for every campaign id
(missing included) and every platform string that does not begin with a
whitespace character (all real platform tags qualify). -/
theorem c3_idempotent_amended (cid : Option String) (p : String)
    (hp : hasLeadingSpace p = false) :
    normalize_campaign_id (some (normalize_campaign_id cid p)) p =
      normalize_campaign_id cid p := by
  have hp' : ∀ ch, p.data.head? = some ch → pyIsSpace ch = false := by
    intro ch hch
    unfold hasLeadingSpace at hp
    rw [hch] at hp
    exact hp
  show (if pyStartsWith (pyStrip (normalize_campaign_id cid p)) p
        then pyStrip (normalize_campaign_id cid p)
        else p ++ "_" ++ pyStrip (normalize_campaign_id cid p)) = _
  rw [normalize_strip_fixed cid p hp', if_pos (normalize_leads cid p)]

/-- Witness for C3 on a real platform tag and an id needing both stripping
and prefixing. -/
theorem c3_witness :
    hasLeadingSpace "google_ads" = false ∧
    normalize_campaign_id (some (normalize_campaign_id (some " 42 ") "google_ads"))
        "google_ads" =
      normalize_campaign_id (some " 42 ") "google_ads" :=
  ⟨by decide, c3_idempotent_amended (some " 42 ") "google_ads" (by decide)⟩

/-- C4 counterexample: two distinct platform strings, one a leading segment
of the other, can map the same raw id to the same normalized id:
`"facebook_ads_7"` is returned unchanged both for platform `"facebook"` and
for platform `"facebook_ads"`. -/
theorem c4_counterexample :
    normalize_campaign_id (some "facebook_ads_7") "facebook" =
      normalize_campaign_id (some "facebook_ads_7") "facebook_ads" ∧
    ("facebook" : String) ≠ "facebook_ads" := by
  constructor
  · decide
  · decide

/-- C4 amended: normalized ids are distinct across any two platforms of
which neither is a leading segment of the other — in particular across
`google_ads` and `facebook_ads`, so shared numeric id spaces never
collide. -/
theorem c4_cross_platform_distinct_amended (cid : Option String) (p q : String)
    (h1 : leadsWith p.data q.data = false) (h2 : leadsWith q.data p.data = false) :
    normalize_campaign_id cid p ≠ normalize_campaign_id cid q := by
  intro he
  have hp := normalize_leads cid p
  have hq := normalize_leads cid q
  rw [he] at hp
  unfold pyStartsWith at hp hq
  rcases leads_comparable hp hq with hcomp | hcomp
  · rw [h1] at hcomp
    exact Bool.noConfusion hcomp
  · rw [h2] at hcomp
    exact Bool.noConfusion hcomp

/-- Witness for C4: the id `42` never collides between the two real
platforms. -/
theorem c4_witness :
    leadsWith ("google_ads" : String).data ("facebook_ads" : String).data = false ∧
    leadsWith ("facebook_ads" : String).data ("google_ads" : String).data = false ∧
    normalize_campaign_id (some "42") "google_ads" ≠
      normalize_campaign_id (some "42") "facebook_ads" :=
  ⟨by decide, by decide,
    c4_cross_platform_distinct_amended (some "42") "google_ads" "facebook_ads"
      (by decide) (by decide)⟩

/-- C5 counterexample: a row whose raw date does not parse is NOT excluded —
`clean_and_merge` only coerces the date to missing (`NaT`/`NaN`) and keeps
the row, so the unified dataset can contain a row with a missing date. -/
theorem c5_counterexample :
    ((processRows [rawBadDate]).all fun r => r.date.isSome) = false := by
  decide

/-- C5 amended: no row is ever dropped — the unified dataset is exactly a
permutation (the sorted arrangement) of the cleaned input rows, one output
row per input row, and a row whose date fails to parse is kept with a
missing date. -/
theorem c5_unparsable_dates_kept_amended :
    (∀ l : List RawRow,
        ((processRows l).Perm (l.map cleanRow)) ∧ (processRows l).length = l.length) ∧
    ∀ r : RawRow, parseDate r.date = none → (cleanRow r).date = none := by
  constructor
  · intro l
    refine ⟨sortRows_perm (l.map cleanRow), ?_⟩
    show (sortRows (l.map cleanRow)).length = l.length
    rw [(sortRows_perm (l.map cleanRow)).length_eq, List.length_map]
  · intro r h
    show (parseDate r.date).map fmtDate = none
    rw [h]
    rfl

/-- Witness for C5 at the concrete unparsable-date row. -/
theorem c5_witness :
    parseDate "not-a-date" = none ∧ (cleanRow rawBadDate).date = none :=
  ⟨by decide, c5_unparsable_dates_kept_amended.2 rawBadDate (by decide)⟩

/-- C6: `clean_and_merge` raises exactly when neither input table exists, in
which case the prior output file is untouched; with exactly one table it
succeeds, the unified dataset is the processed rows of that table alone, and
a warning is recorded for the missing source. -/
theorem c6_input_availability (google facebook : Option (List RawRow))
    (prior : Option (List Row)) :
    ((clean_and_merge google facebook prior).result = .error noDataError ↔
      google = none ∧ facebook = none) ∧
    (google = none → facebook = none →
      (clean_and_merge google facebook prior).store = prior) ∧
    (∀ g, google = some g → facebook = none →
      (clean_and_merge google facebook prior).result = .ok (processRows g) ∧
      (clean_and_merge google facebook prior).store = some (processRows g) ∧
      facebookWarning ∈ (clean_and_merge google facebook prior).warnings) ∧
    (∀ f, google = none → facebook = some f →
      (clean_and_merge google facebook prior).result = .ok (processRows f) ∧
      (clean_and_merge google facebook prior).store = some (processRows f) ∧
      googleWarning ∈ (clean_and_merge google facebook prior).warnings) := by
  rcases google with _ | g <;> rcases facebook with _ | f <;>
    simp [clean_and_merge]

/-- Witness for C6: one-table run succeeds with the missing-source warning;
no-table run fails and leaves the prior store. -/
theorem c6_witness :
    (clean_and_merge (some []) none none).result = .ok (processRows []) ∧
    facebookWarning ∈ (clean_and_merge (some []) none none).warnings ∧
    (clean_and_merge none none (some [sampleRow])).store = some [sampleRow] ∧
    (clean_and_merge none none (some [sampleRow])).result = .error noDataError := by
  obtain ⟨h1, _, h3⟩ := (c6_input_availability (some []) none none).2.2.1 [] rfl rfl
  refine ⟨h1, h3, ?_, ?_⟩
  · exact (c6_input_availability none none (some [sampleRow])).2.1 rfl rfl
  · exact ((c6_input_availability none none (some [sampleRow])).1).mpr ⟨rfl, rfl⟩

/-- C7 counterexample: the table replacement is not atomic.  `load_to_duckdb`
first commits `DROP TABLE IF EXISTS` and only then runs `CREATE TABLE ... AS`;
when the CREATE step fails, the store holds neither the complete prior
dataset nor the complete new one — it is empty. -/
theorem c7_counterexample :
    (load_to_duckdb (some [sampleRow]) [sampleRow, sampleRow] false).1 ≠ some [sampleRow] ∧
    (load_to_duckdb (some [sampleRow]) [sampleRow, sampleRow] false).1 ≠
      some [sampleRow, sampleRow] ∧
    (load_to_duckdb (some [sampleRow]) [sampleRow, sampleRow] false).2 = false := by
  refine ⟨?_, ?_, rfl⟩ <;> simp [load_to_duckdb, dropTable]

/-- C7 amended: the store never mixes old and new rows — after a load it is
either exactly the new dataset (successful CREATE) or empty (the DROP
committed and the CREATE failed, losing the prior contents). -/
theorem c7_drop_then_create_amended (prior : Option (List Row)) (df : List Row)
    (createOk : Bool) :
    ((load_to_duckdb prior df createOk).1 = some df ∨
      (load_to_duckdb prior df createOk).1 = none) ∧
    (createOk = true → (load_to_duckdb prior df createOk).1 = some df) ∧
    (createOk = false →
      (load_to_duckdb prior df createOk).1 = none ∧
      (load_to_duckdb prior df createOk).2 = false) := by
  cases createOk <;> simp [load_to_duckdb, dropTable, createTable]

/-- Witness for C7 on both outcomes. -/
theorem c7_witness :
    (load_to_duckdb none [sampleRow] true).1 = some [sampleRow] ∧
    (load_to_duckdb (some [sampleRow]) [] false).1 = none :=
  ⟨(c7_drop_then_create_amended none [sampleRow] true).2.1 rfl,
    ((c7_drop_then_create_amended (some [sampleRow]) [] false).2.2 rfl).1⟩

theorem floor_one_eighth_times_hundred : ⌊(1:ℚ)/8*100⌋ = 12 := by
  rw [show ((1:ℚ)/8*100) = ((25:ℕ):ℚ)/((2:ℕ):ℚ) by push_cast; norm_num]
  rw [Rat.floor_natCast_div_natCast]
  rfl

/-- C8 counterexample: the rounding is half-even, not half-up.  With
`cost = 1, clicks = 8` the exact ratio is `0.125` (third decimal digit 5,
and exactly representable in binary floating point, so the float pipeline
agrees with the rational model); half-up would give `0.13`, but the code
yields `0.12` — the value rounds toward zero, not away.  (The example inside
the claim, `clicks = 1, impressions = 8000`, gives `0.0125`, whose third
decimal digit is 2, not 5; it rounds to `0.01` under both modes.) -/
theorem c8_counterexample :
    (compute_metrics 100 8 0 1 0).cpc = 12/100 ∧ ((12:ℚ)/100) ≠ 13/100 := by
  constructor
  · show pyRound2 (fillna0 (naDiv 1 (naRepl0 8))) = 12/100
    rw [show fillna0 (naDiv 1 (naRepl0 8)) = (1:ℚ)/8 by
      unfold naRepl0
      rw [if_neg (by norm_num : ¬(8:ℚ) = 0)]
      rfl]
    unfold pyRound2 rintHalfEven
    rw [floor_one_eighth_times_hundred]
    norm_num
  · norm_num

/-- At an exact midpoint the rounding picks the even neighbour. -/
theorem rintHalfEven_midpoint {x : ℚ} (h : x - (⌊x⌋ : ℚ) = 1/2) :
    rintHalfEven x = if ⌊x⌋ % 2 = 0 then ⌊x⌋ else ⌊x⌋ + 1 := by
  show (if x - (⌊x⌋ : ℚ) < 1/2 then ⌊x⌋
        else if 1/2 < x - (⌊x⌋ : ℚ) then ⌊x⌋ + 1
        else if ⌊x⌋ % 2 = 0 then ⌊x⌋ else ⌊x⌋ + 1) = _
  rw [h, if_neg (lt_irrefl ((1:ℚ)/2)), if_neg (lt_irrefl ((1:ℚ)/2))]

/-- C8 amended: the rounding applied to the metrics is half to even at 2
decimal places: whenever the exact scaled ratio sits exactly midway between
two hundredths, the code picks the even hundredth (toward zero when the
floor is even), as `cpc` for `cost = 1, clicks = 8` shows (`0.125 → 0.12`). -/
theorem c8_half_even_amended (i c cv co rv : ℚ) (hc : c ≠ 0)
    (hmid : co / c * 100 - (⌊co / c * 100⌋ : ℚ) = 1/2) :
    (compute_metrics i c cv co rv).cpc =
      ((if ⌊co / c * 100⌋ % 2 = 0 then ⌊co / c * 100⌋ else ⌊co / c * 100⌋ + 1 : ℤ) : ℚ) /
        100 := by
  show pyRound2 (fillna0 (naDiv co (naRepl0 c))) = _
  rw [show fillna0 (naDiv co (naRepl0 c)) = co / c by
    unfold naRepl0
    rw [if_neg hc]
    rfl]
  unfold pyRound2
  rw [rintHalfEven_midpoint hmid]

/-- Witness for C8 at `cost = 1, clicks = 8`. -/
theorem c8_witness :
    ((8:ℚ) ≠ 0 ∧ (1:ℚ)/8*100 - (⌊(1:ℚ)/8*100⌋ : ℚ) = 1/2) ∧
    (compute_metrics 100 8 0 1 0).cpc =
      ((if ⌊(1:ℚ)/8*100⌋ % 2 = 0 then ⌊(1:ℚ)/8*100⌋ else ⌊(1:ℚ)/8*100⌋ + 1 : ℤ) : ℚ) /
        100 :=
  ⟨⟨by norm_num, by rw [floor_one_eighth_times_hundred]; norm_num⟩,
    c8_half_even_amended 100 8 0 1 0 (by norm_num)
      (by rw [floor_one_eighth_times_hundred]; norm_num)⟩
